import Mathlib

/-!
Verification of the qwen-bot job-orchestration pipeline.

Shallow embedding of `src/bot.py` and `src/translations.py`:
the access gate `is_allowed`, the polling loop `poll_job_status`
(modelled as a fuel-indexed function over a trace of observed statuses
and clock readings), the image preprocessor `resize_image_if_needed`
(with an exact model of binary64 rounding for the scale computation),
the localization lookup `t`, and the gate/dispatch prefix of the
message and slash-command orchestrators.
-/

namespace QwenBot

/-- Configuration drawn from the environment (src/bot.py:27-41):
allow-lists for guilds, channels and direct-message users, the job
timeout in seconds and the maximum image dimension. -/
structure BotConfig where
  allowedGuilds : List Nat
  allowedChannels : List Nat
  allowedDMs : List Nat
  jobTimeout : Int
  maxImageDimension : Nat
  deriving Repr, DecidableEq

/-- Embedding of `is_allowed` (src/bot.py:54-73).  `guild_id = none`
models a direct message; `user_id` has Python default `None`.
A `None` channel id is never contained in a nonempty allow-list
(Python `None not in list` is true). -/
def is_allowed (cfg : BotConfig) (guild_id : Option Nat) (channel_id : Option Nat)
    (user_id : Option Nat := none) : Bool :=
  match guild_id with
  | none =>
      match user_id with
      | some uid => cfg.allowedDMs.contains uid
      | none => false
  | some gid =>
      if !cfg.allowedGuilds.isEmpty && !cfg.allowedGuilds.contains gid then false
      else if !cfg.allowedChannels.isEmpty &&
          !(match channel_id with
            | some cid => cfg.allowedChannels.contains cid
            | none => false) then false
      else true

/-- A trace of the backend's answers to the successive status fetches of one
polling loop: `status n` and `time n` are the status string and the event-loop
clock reading observed on the n-th poll (n = 1, 2, ...).  This models the
successful-fetch path (HTTP 200 with a JSON body); the loop reads the clock at
most once per iteration that matters, so one reading per poll suffices. -/
structure PollTrace where
  status : Nat → String
  time : Nat → Int

/-- Terminal statuses of a job (src/bot.py:100, 107). -/
def isTerminalStatus (s : String) : Prop :=
  s = "completed" ∨ s = "failed"

instance (s : String) : Decidable (isTerminalStatus s) := by
  unfold isTerminalStatus; infer_instance

/-- Outcome of one run of the polling loop.  Each constructor carries the
number of the final poll and the `processing_start_time` the loop had
recorded at that point (the source reads it for its log lines and for the
timeout computation). -/
inductive PollOutcome where
  | completed (finalPoll : Nat) (processingStart : Option Int)
  | jobFailed (finalPoll : Nat) (processingStart : Option Int)
  | timedOut (finalPoll : Nat) (processingStart : Int)
  deriving Repr, DecidableEq

/-- Final poll number of an outcome. -/
def PollOutcome.finalPoll : PollOutcome → Nat
  | .completed n _ => n
  | .jobFailed n _ => n
  | .timedOut n _ => n

/-- The `processing_start_time` recorded when the loop ended. -/
def PollOutcome.processingStart : PollOutcome → Option Int
  | .completed _ st => st
  | .jobFailed _ st => st
  | .timedOut _ st => some st

/-- One-iteration-per-step embedding of the `while True` loop of
`poll_job_status` (src/bot.py:88-123), with explicit fuel because the loop
need not terminate (e.g. a job that stays `queued` forever).  Arguments:
current poll number `n` and the current `processing_start_time`.
Mirrors the source order exactly: check `completed`, then `failed`, then
record the processing start when the status is not `queued` and none is
recorded yet, then apply the timeout check only when a start is recorded,
then sleep and loop. -/
def pollAux (tr : PollTrace) (timeout : Int) : Nat → Nat → Option Int → Option PollOutcome
  | 0, _, _ => none
  | fuel + 1, n, start =>
    if tr.status n = "completed" then
      some (.completed n start)
    else if tr.status n = "failed" then
      some (.jobFailed n start)
    else
      match (if tr.status n ≠ "queued" ∧ start = none then some (tr.time n) else start) with
      | none => pollAux tr timeout fuel (n + 1) none
      | some st =>
          if tr.time n - st > timeout then some (.timedOut n st)
          else pollAux tr timeout fuel (n + 1) (some st)

/-- Embedding of `poll_job_status` (src/bot.py:81-123) including its
default-timeout handling: a `none` timeout argument resolves to the
configured `JOB_TIMEOUT` (src/bot.py:82-83).  Polling starts at poll 1
with no recorded processing start. -/
def poll_job_status (tr : PollTrace) (timeoutArg : Option Int) (jobTimeoutCfg : Int)
    (fuel : Nat) : Option PollOutcome :=
  pollAux tr (timeoutArg.getD jobTimeoutCfg) fuel 1 none

/-- Timeout argument passed to `poll_job_status` by `handle_generate_message`
(src/bot.py:280): none, so the configured default applies. -/
def handle_generate_message_timeout_arg : Option Int := none

/-- Timeout argument passed to `poll_job_status` by `handle_edit_message`
(src/bot.py:351): none, so the configured default applies. -/
def handle_edit_message_timeout_arg : Option Int := none

/-- Timeout argument passed to `poll_job_status` by `handle_reply_edit`
(src/bot.py:422): none. -/
def handle_reply_edit_timeout_arg : Option Int := none

/-- Timeout argument passed to `poll_job_status` by the `/generate` slash
command (src/bot.py:508): none. -/
def slash_generate_timeout_arg : Option Int := none

/-- Timeout argument passed to `poll_job_status` by the `/edit` slash
command (src/bot.py:612): none. -/
def slash_edit_timeout_arg : Option Int := none

/-- The timeout budget a generate-kind submission is actually polled with. -/
def generate_poll_timeout (cfg : BotConfig) : Int :=
  handle_generate_message_timeout_arg.getD cfg.jobTimeout

/-- The timeout budget an edit-kind submission is actually polled with. -/
def edit_poll_timeout (cfg : BotConfig) : Int :=
  handle_edit_message_timeout_arg.getD cfg.jobTimeout

/-- A poll of status `s` at clock reading `k` was strictly before poll `n`
and every earlier poll reported `queued`. -/
def queuedBefore (tr : PollTrace) (n : Nat) : Prop :=
  ∀ j, 1 ≤ j → j < n → tr.status j = "queued"

/-- Poll `k` is the first one whose status is neither `queued` nor terminal:
every strictly earlier poll reported `queued`. -/
def startsProcessingAt (tr : PollTrace) (k : Nat) : Prop :=
  tr.status k ≠ "queued" ∧ ¬ isTerminalStatus (tr.status k) ∧ queuedBefore tr k

/-! Binary64 model.  The source computes `scale = max_dimension / longest_side`
and `int(width * scale)` with Python floats, i.e. IEEE-754 binary64 arithmetic
with round-to-nearest, ties-to-even.  We model a binary64 value in the normal
range by its exact rational value: rounding takes the exact rational result to
the nearest element of the grid of 53-bit significands (unbounded exponent, a
faithful model for all values far from overflow and underflow, as here). -/

/-- Round a rational to the nearest integer, ties to even. -/
def roundEven (q : ℚ) : ℤ :=
  if q - ⌊q⌋ < 1/2 then ⌊q⌋
  else if q - ⌊q⌋ > 1/2 then ⌊q⌋ + 1
  else if Even ⌊q⌋ then ⌊q⌋ else ⌊q⌋ + 1

/-- Linear scan for the binade: the least `e ≥ start` with `q < 2 ^ (e + 1)`,
bounded by `fuel` steps. -/
def findExpGo (q : ℚ) : Nat → ℤ → ℤ
  | 0, e => e
  | fuel + 1, e => if q < 2 ^ (e + 1) then e else findExpGo q fuel (e + 1)

/-- Binade of a positive rational `q` in `[2 ^ (-64), 2 ^ 64)`: the unique `e`
with `2 ^ e ≤ q < 2 ^ (e + 1)`. -/
def findExp (q : ℚ) : ℤ :=
  findExpGo q 128 (-64)

/-- Round a positive rational in the normal range to the binary64 grid:
scale into `[2 ^ 52, 2 ^ 53)`, round to an integer significand (ties to
even), scale back.  Zero and negative inputs are clamped to zero (the
resize computation only ever rounds positive values). -/
def roundB64 (q : ℚ) : ℚ :=
  if q ≤ 0 then 0
  else ((roundEven (q * 2 ^ ((52 : ℤ) - findExp q)) : ℚ)) * 2 ^ (findExp q - (52 : ℤ))

/-- Python float division `a / b` on exact operands: binary64 rounding of the
exact quotient. -/
def pyDiv (a b : ℚ) : ℚ := roundB64 (a / b)

/-- Python float multiplication on exact operands: binary64 rounding of the
exact product. -/
def pyMul (a b : ℚ) : ℚ := roundB64 (a * b)

/-- Python `int(...)` on a nonnegative float: truncation toward zero. -/
def pyTrunc (q : ℚ) : Nat := (⌊q⌋).toNat

/-- The dimension computation of `resize_image_if_needed` (src/bot.py:155-157):
`scale = max_dimension / longest_side`, then `int(dim * scale)`, both in
binary64. -/
def scaledDim (dim maxDimension longest : Nat) : Nat :=
  pyTrunc (pyMul (dim : ℚ) (pyDiv (maxDimension : ℚ) (longest : ℚ)))

/-- A decoded input image as PIL reports it: pixel dimensions and the
detected format (`none` when PIL cannot name one; src/bot.py:166 falls
back to PNG). -/
structure DecodedImage where
  width : Nat
  height : Nat
  format : Option String
  deriving Repr, DecidableEq

/-- Character-wise uppercase, a structural model of Python `str.upper`
(agreeing with it on the ASCII format names it is applied to). -/
def strUpper (s : String) : String :=
  ⟨s.data.map Char.toUpper⟩

/-- Result of the preprocessor, keeping re-encoding observable: either the
input bytes returned as-is, or a re-encode at the given dimensions, format
and (for JPEG) quality setting. -/
inductive ResizeResult (β : Type) where
  | original (data : β)
  | reencoded (newWidth newHeight : Nat) (format : String) (jpegQuality : Option Nat)
  deriving Repr, DecidableEq

/-- Embedding of `resize_image_if_needed` (src/bot.py:139-174) after a
successful decode of `data` as `img`: within-limit images are returned
byte-identical; oversized ones are scaled by the binary64 computation
`int(dim * (max_dimension / longest_side))` and re-encoded in the detected
format (JPEG at quality 95, PNG fallback when no format was detected). -/
def resize_image_if_needed {β : Type} (img : DecodedImage) (data : β)
    (maxDimension : Nat) : ResizeResult β :=
  let longest := max img.width img.height
  if longest ≤ maxDimension then
    .original data
  else
    let newWidth := scaledDim img.width maxDimension longest
    let newHeight := scaledDim img.height maxDimension longest
    let fmt := img.format.getD "PNG"
    if strUpper fmt = "JPEG" then
      .reencoded newWidth newHeight fmt (some 95)
    else
      .reencoded newWidth newHeight fmt none

/-- Character-wise lowercase, a structural model of Python `str.lower`
(agreeing with it on the ASCII configuration values it is applied to). -/
def strLower (s : String) : String :=
  ⟨s.data.map Char.toLower⟩

/-- Lookup in a string-keyed association list, modelling Python `dict.get`. -/
def dictGet {α : Type} (xs : List (String × α)) (k : String) : Option α :=
  (xs.find? (fun p => p.1 == k)).map (fun p => p.2)

/-- Supported languages (src/translations.py:11-14). -/
def LANGUAGES : List (String × String) :=
  [("en", "English"), ("zh", "中文")]

/-- Embedding of `DEFAULT_LANGUAGE` (src/translations.py:17-18) as a function
of the `DEFAULT_LANGUAGE` environment value: lower-cased, and replaced by
`"en"` when it is not a supported language code. -/
def DEFAULT_LANGUAGE (envLang : String) : String :=
  let l := strLower envLang
  if (dictGet LANGUAGES l).isSome then l else "en"

/-- The translation table `TRANSLATIONS` (src/translations.py:46-270),
transcribed in full: key, then language-to-template pairs. -/
def TRANSLATIONS : List (String × List (String × String)) :=
  [ ("enqueued",
      [("en", "Got it, I have enqueued your request."),
       ("zh", "收到，已将你的请求加入队列。")]),
    ("enqueued_multi",
      [("en", "Got it, I have enqueued your request with {img_count} image(s)."),
       ("zh", "收到，已将你的请求（含 {img_count} 张图片）加入队列。")]),
    ("gen_pipeline_unavailable",
      [("en", "Sorry, the generation pipeline is not available right now."),
       ("zh", "抱歉，图片生成服务目前不可用。")]),
    ("edit_pipeline_unavailable",
      [("en", "Sorry, the edit pipeline is not available right now."),
       ("zh", "抱歉，图片编辑服务目前不可用。")]),
    ("failed_submit_job",
      [("en", "Failed to submit job: {status}"),
       ("zh", "提交任务失败：{status}")]),
    ("invalid_request",
      [("en", "Invalid request: {detail}"),
       ("zh", "无效请求：{detail}")]),
    ("heres_your_image",
      [("en", "Here\x27s your image!"),
       ("zh", "你的图片生成好了！")]),
    ("heres_your_edited_image",
      [("en", "Here\x27s your edited image!"),
       ("zh", "你的编辑图片完成了！")]),
    ("something_went_wrong",
      [("en", "Sorry, something went wrong: {error}"),
       ("zh", "抱歉，出了点问题：{error}")]),
    ("cmd_not_available",
      [("en", "This command is not available here."),
       ("zh", "此命令在当前位置不可用。")]),
    ("gen_pipeline_not_available",
      [("en", "Generation pipeline is not available."),
       ("zh", "图片生成服务不可用。")]),
    ("edit_pipeline_not_available",
      [("en", "Edit pipeline is not available."),
       ("zh", "图片编辑服务不可用。")]),
    ("generating_image",
      [("en", "Generating image... (Job ID: `{job_id}`)"),
       ("zh", "正在生成图片……（任务ID：`{job_id}`）")]),
    ("editing_image",
      [("en", "Editing image... (Job ID: `{job_id}`)"),
       ("zh", "正在编辑图片……（任务ID：`{job_id}`）")]),
    ("attach_valid_image",
      [("en", "Please attach a valid image file."),
       ("zh", "请附加一个有效的图片文件。")]),
    ("error",
      [("en", "Error: {error}"),
       ("zh", "错误：{error}")]),
    ("embed_generated_image",
      [("en", "Generated Image"), ("zh", "生成的图片")]),
    ("embed_edited_image",
      [("en", "Edited Image"), ("zh", "编辑后的图片")]),
    ("embed_job_status",
      [("en", "Job Status: {job_id}..."), ("zh", "任务状态：{job_id}...")]),
    ("embed_queue_status",
      [("en", "Queue Status"), ("zh", "队列状态")]),
    ("embed_system_info",
      [("en", "System Information"), ("zh", "系统信息")]),
    ("field_prompt", [("en", "Prompt"), ("zh", "提示词")]),
    ("field_negative_prompt", [("en", "Negative Prompt"), ("zh", "反向提示词")]),
    ("field_size", [("en", "Size"), ("zh", "尺寸")]),
    ("field_steps", [("en", "Steps"), ("zh", "步数")]),
    ("field_cfg", [("en", "CFG"), ("zh", "CFG")]),
    ("field_edit_instructions", [("en", "Edit Instructions"), ("zh", "编辑指令")]),
    ("field_type", [("en", "Type"), ("zh", "类型")]),
    ("field_status", [("en", "Status"), ("zh", "状态")]),
    ("field_progress", [("en", "Progress"), ("zh", "进度")]),
    ("field_error", [("en", "Error"), ("zh", "错误")]),
    ("field_queue_size", [("en", "Queue Size"), ("zh", "队列长度")]),
    ("field_total_jobs", [("en", "Total Jobs"), ("zh", "总任务数")]),
    ("field_completed", [("en", "Completed"), ("zh", "已完成")]),
    ("field_failed", [("en", "Failed"), ("zh", "失败")]),
    ("field_generation_jobs", [("en", "Generation Jobs"), ("zh", "生成任务")]),
    ("field_edit_jobs", [("en", "Edit Jobs"), ("zh", "编辑任务")]),
    ("field_current_job", [("en", "Current Job"), ("zh", "当前任务")]),
    ("field_device", [("en", "Device"), ("zh", "设备")]),
    ("field_cuda_available", [("en", "CUDA Available"), ("zh", "CUDA 可用")]),
    ("field_quantization", [("en", "Quantization"), ("zh", "量化")]),
    ("field_gpu", [("en", "GPU"), ("zh", "GPU")]),
    ("field_memory_allocated", [("en", "Memory Allocated"), ("zh", "已分配显存")]),
    ("field_memory_total", [("en", "Memory Total"), ("zh", "显存总量")]),
    ("field_gen_pipeline", [("en", "Generation Pipeline"), ("zh", "生成管线")]),
    ("field_edit_pipeline", [("en", "Edit Pipeline"), ("zh", "编辑管线")]),
    ("not_loaded", [("en", "not loaded"), ("zh", "未加载")]),
    ("job_not_found", [("en", "Job not found."), ("zh", "未找到该任务。")]),
    ("failed_get_status",
      [("en", "Failed to get status: {status}"), ("zh", "获取状态失败：{status}")]),
    ("failed_get_queue",
      [("en", "Failed to get queue info: {status}"), ("zh", "获取队列信息失败：{status}")]),
    ("failed_get_system",
      [("en", "Failed to get system info: {status}"), ("zh", "获取系统信息失败：{status}")]),
    ("language_set",
      [("en", "Language set to **English**."), ("zh", "语言已设置为**中文**。")]),
    ("language_current",
      [("en", "Current language: **{lang_name}**. Use `/language` to switch."),
       ("zh", "当前语言：**{lang_name}**。使用 `/language` 切换。")]) ]

/-- Embedding of the lookup `t` (src/translations.py:34-42), template lookup
only (the `.format` substitution applies afterwards and does not affect which
template is chosen): try the requested language, fall back to the `"en"`
entry, and finally to the key itself. -/
def t (key : String) (lang : String) : String :=
  match dictGet ((dictGet TRANSLATIONS key).getD []) lang with
  | some text => text
  | none => (dictGet ((dictGet TRANSLATIONS key).getD []) "en").getD key

/-- The localized "not available here" text (src/bot.py:472 etc.). -/
def CMD_NOT_AVAILABLE : String := "This command is not available here."

/-- User-visible effects of the orchestrator prefix, as emitted in order.
The three `run*Handler` markers stand for the invocations of
`handle_reply_edit`, `handle_edit_message` and `handle_generate_message`,
whose bodies perform the acknowledgment and the backend round trip;
`runGenerateJob` likewise stands for the body of the `/generate` slash
command after its `defer`.  No other action reaches the backend. -/
inductive BotAction where
  | reply (text : String)
  | respondEphemeral (text : String)
  | deferThinking
  | runReplyEditHandler (prompt : String)
  | runEditHandler (prompt : String)
  | runGenerateHandler (prompt : String)
  | runGenerateJob
  | processCommands
  deriving Repr, DecidableEq

/-- Does this action involve a call to the backend API? -/
def BotAction.reachesBackend : BotAction → Bool
  | .runReplyEditHandler _ => true
  | .runEditHandler _ => true
  | .runGenerateHandler _ => true
  | .runGenerateJob => true
  | _ => false

/-- Number of "not available here" responses among a list of actions. -/
def notAvailableResponses (acts : List BotAction) : Nat :=
  acts.countP fun a =>
    match a with
    | .reply txt => txt == CMD_NOT_AVAILABLE
    | .respondEphemeral txt => txt == CMD_NOT_AVAILABLE
    | _ => false

/-- Number of backend-reaching actions among a list of actions. -/
def backendCalls (acts : List BotAction) : Nat :=
  acts.countP BotAction.reachesBackend

/-- An inbound chat message as `on_message` inspects it.  `guildId = none`
models a direct message; `referencedIsBotWithImages` is true when the message
replies to a message that could be fetched, was authored by the bot and
carries image attachments. -/
structure MessageEvent where
  authorIsBot : Bool
  guildId : Option Nat
  channelId : Nat
  authorId : Nat
  content : String
  hasImageAttachments : Bool
  mentionsBot : Bool
  hasReference : Bool
  referencedIsBotWithImages : Bool

/-- Embedding of the `on_message` event handler (src/bot.py:190-245),
parameterized by the bot's own user id (used to strip the mention from the
prompt).  A denied message is silently dropped (the gate branch at
src/bot.py:201-203 returns without sending anything). -/
def on_message (cfg : BotConfig) (botId : Nat) (msg : MessageEvent) : List BotAction :=
  if msg.authorIsBot then []
  else if !(is_allowed cfg msg.guildId (some msg.channelId) (some msg.authorId)) then []
  else if msg.hasReference ∧ msg.content.trim ≠ "" ∧ msg.referencedIsBotWithImages then
    [.runReplyEditHandler msg.content.trim]
  else
    let prompt :=
      ((msg.content.replace ("<@" ++ toString botId ++ ">") "").replace
        ("<@!" ++ toString botId ++ ">") "").trim
    if msg.hasImageAttachments ∧ msg.content.trim ≠ "" ∧ msg.mentionsBot ∧ prompt ≠ "" then
      [.runEditHandler prompt]
    else if (strLower msg.content).trim.startsWith "draw " ∧ (msg.content.trim.drop 5).trim ≠ "" then
      [.runGenerateHandler ((msg.content.trim.drop 5).trim)]
    else
      [.processCommands]

/-- A slash-command interaction as the gate inspects it. -/
structure InteractionEvent where
  guildId : Option Nat
  channelId : Option Nat
  userId : Nat

/-- Embedding of the gate prefix of the `/generate` slash command
(src/bot.py:454-476): a denied interaction gets exactly the ephemeral
"not available here" response; an allowed one defers and runs the
generation body (submit, poll, deliver). -/
def generate (cfg : BotConfig) (itx : InteractionEvent) : List BotAction :=
  if !(is_allowed cfg itx.guildId itx.channelId (some itx.userId)) then
    [.respondEphemeral CMD_NOT_AVAILABLE]
  else
    [.deferThinking, .runGenerateJob]

/-- Loop invariant of `pollAux` relating the recorded
`processing_start_time` to the history of polls strictly before the
current one. -/
def PollInv (tr : PollTrace) (n : Nat) (start : Option Int) : Prop :=
  1 ≤ n ∧
  (start = none → queuedBefore tr n) ∧
  (∀ st, start = some st →
    ∃ k, 1 ≤ k ∧ k < n ∧ startsProcessingAt tr k ∧ st = tr.time k)

/-- Concrete trace for exercising the poller: queued, then processing,
then completed, with the clock advancing 2 units per poll. -/
def trQPC : PollTrace :=
  ⟨fun n => if n ≤ 1 then "queued" else if n = 2 then "processing" else "completed",
   fun n => 2 * (n : Int)⟩

/-- Concrete trace that reports `queued` on every poll while the clock
races ahead a million units per poll. -/
def trQ : PollTrace :=
  ⟨fun _ => "queued", fun n => 1000000 * (n : Int)⟩

/-- Concrete trace that reports `processing` forever, with a clock jump
after the first poll. -/
def trP : PollTrace :=
  ⟨fun _ => "processing", fun n => if n ≤ 1 then 0 else 50⟩

/-- Concrete trace that reports `completed` immediately, with a huge
clock value. -/
def trC : PollTrace :=
  ⟨fun _ => "completed", fun _ => 1000000000⟩

end QwenBot

namespace QwenBot

/-! Theorems. -/

theorem list_contains_iff {l : List Nat} {a : Nat} : l.contains a = true ↔ a ∈ l := by
  simp

/-- C2: the access decision of `is_allowed`.  In a direct message
(`guild_id = none`) the caller is allowed iff it is in the configured
DM allow-set, so an empty DM allow-set always denies; in a guild scope
the decision holds iff the guild allow-set is empty or contains the
guild and the channel allow-set is empty or contains the channel, so
empty guild and channel allow-sets always allow. -/
theorem is_allowed_characterization (cfg : BotConfig) (channel_id : Option Nat)
    (caller gid cid : Nat) :
    (is_allowed cfg none channel_id (some caller) = true ↔ caller ∈ cfg.allowedDMs)
    ∧ (cfg.allowedDMs = [] → is_allowed cfg none channel_id (some caller) = false)
    ∧ (is_allowed cfg (some gid) (some cid) (some caller) = true ↔
        ((cfg.allowedGuilds = [] ∨ gid ∈ cfg.allowedGuilds)
          ∧ (cfg.allowedChannels = [] ∨ cid ∈ cfg.allowedChannels)))
    ∧ (cfg.allowedGuilds = [] → cfg.allowedChannels = [] →
        is_allowed cfg (some gid) (some cid) (some caller) = true) := by
  refine ⟨?_, ?_, ?_, ?_⟩
  · simp [is_allowed]
  · intro h; simp [is_allowed, h]
  · by_cases hg : cfg.allowedGuilds = [] <;>
      by_cases hc : cfg.allowedChannels = [] <;>
        simp [is_allowed, hg, hc, List.isEmpty_iff]
  · intro hg hc; simp [is_allowed, hg, hc]

/-- C10: in guild scopes the access decision never depends on the caller
identity; any two callers in the same guild and channel get the same
answer. -/
theorem is_allowed_guild_caller_independent (cfg : BotConfig) (gid : Nat)
    (channel_id u1 u2 : Option Nat) :
    is_allowed cfg (some gid) channel_id u1 = is_allowed cfg (some gid) channel_id u2 :=
  rfl

/-- C1 counterexample: with the default configuration (JOB_TIMEOUT 1000)
the timeout budget used to poll an edit-kind submission is not strictly
longer than the one used for a generate-kind submission; both resolve to
the same configured JOB_TIMEOUT because every call site passes no timeout
argument. -/
theorem edit_timeout_not_longer :
    ¬ (edit_poll_timeout ⟨[], [], [], 1000, 1024⟩ >
        generate_poll_timeout ⟨[], [], [], 1000, 1024⟩) := by
  decide

/-- C1 amended: the poll timeout is not drawn from the job kind; every
call site of `poll_job_status` passes no timeout argument, so edit-kind
and generate-kind submissions are polled with the same budget, the
configured JOB_TIMEOUT default, and the polling behaviour on any trace
is identical. -/
theorem poll_timeout_same_for_both_kinds (cfg : BotConfig) (tr : PollTrace) (fuel : Nat) :
    edit_poll_timeout cfg = generate_poll_timeout cfg
    ∧ edit_poll_timeout cfg = cfg.jobTimeout
    ∧ poll_job_status tr handle_edit_message_timeout_arg cfg.jobTimeout fuel =
        poll_job_status tr handle_generate_message_timeout_arg cfg.jobTimeout fuel
    ∧ handle_reply_edit_timeout_arg = none ∧ slash_generate_timeout_arg = none
    ∧ slash_edit_timeout_arg = none :=
  ⟨rfl, rfl, rfl, rfl, rfl, rfl⟩

/-- C3 counterexample: a denied natural-language trigger gets no response
at all.  A direct message "draw a cat" from user 42 under the default
configuration (empty DM allow-set) is denied by the gate, yet `on_message`
performs no action: zero "not available here" responses rather than
exactly one. -/
theorem denied_message_gets_no_response :
    is_allowed ⟨[], [], [], 1000, 1024⟩ none (some 5) (some 42) = false
    ∧ on_message ⟨[], [], [], 1000, 1024⟩ 99
        ⟨false, none, 5, 42, "draw a cat", false, false, false, false⟩ = []
    ∧ notAvailableResponses
        (on_message ⟨[], [], [], 1000, 1024⟩ 99
          ⟨false, none, 5, 42, "draw a cat", false, false, false, false⟩) = 0 :=
  ⟨rfl, rfl, rfl⟩

/-- C3 amended: on a denied access evaluation no backend call is ever
made, but the response differs by trigger kind: slash-command triggers
emit exactly one localized "not available here" response, while
message-based triggers (natural-language, mention-edit and reply-to-bot
commands) are silently dropped with no response at all. -/
theorem denied_trigger_behaviour (cfg : BotConfig) (botId : Nat) (msg : MessageEvent)
    (itx : InteractionEvent) :
    (msg.authorIsBot = false →
      is_allowed cfg msg.guildId (some msg.channelId) (some msg.authorId) = false →
      on_message cfg botId msg = []
        ∧ notAvailableResponses (on_message cfg botId msg) = 0
        ∧ backendCalls (on_message cfg botId msg) = 0)
    ∧ (is_allowed cfg itx.guildId itx.channelId (some itx.userId) = false →
      generate cfg itx = [.respondEphemeral CMD_NOT_AVAILABLE]
        ∧ notAvailableResponses (generate cfg itx) = 1
        ∧ backendCalls (generate cfg itx) = 0) := by
  constructor
  · intro hbot hdeny
    have hmsg : on_message cfg botId msg = [] := by
      simp [on_message, hbot, hdeny]
    exact ⟨hmsg, by simp [hmsg, notAvailableResponses], by simp [hmsg, backendCalls]⟩
  · intro hdeny
    have hgen : generate cfg itx = [.respondEphemeral CMD_NOT_AVAILABLE] := by
      simp [generate, hdeny]
    refine ⟨hgen, ?_, ?_⟩
    · rw [hgen]; decide
    · rw [hgen]; decide

/-- Witness for the C3 amended theorem at a concrete denied message and a
concrete denied interaction. -/
theorem denied_trigger_behaviour_witness :
    (on_message ⟨[], [], [], 1000, 1024⟩ 99
        ⟨false, none, 7, 42, "draw a dog", false, false, false, false⟩ = []
      ∧ notAvailableResponses
          (on_message ⟨[], [], [], 1000, 1024⟩ 99
            ⟨false, none, 7, 42, "draw a dog", false, false, false, false⟩) = 0
      ∧ backendCalls
          (on_message ⟨[], [], [], 1000, 1024⟩ 99
            ⟨false, none, 7, 42, "draw a dog", false, false, false, false⟩) = 0)
    ∧ (generate ⟨[], [], [], 1000, 1024⟩ ⟨none, some 7, 42⟩ =
          [.respondEphemeral CMD_NOT_AVAILABLE]
      ∧ notAvailableResponses (generate ⟨[], [], [], 1000, 1024⟩ ⟨none, some 7, 42⟩) = 1
      ∧ backendCalls (generate ⟨[], [], [], 1000, 1024⟩ ⟨none, some 7, 42⟩) = 0) :=
  ⟨(denied_trigger_behaviour ⟨[], [], [], 1000, 1024⟩ 99
      ⟨false, none, 7, 42, "draw a dog", false, false, false, false⟩
      ⟨none, some 7, 42⟩).1 rfl rfl,
   (denied_trigger_behaviour ⟨[], [], [], 1000, 1024⟩ 99
      ⟨false, none, 7, 42, "draw a dog", false, false, false, false⟩
      ⟨none, some 7, 42⟩).2 rfl⟩

/-- C7: every decodable image whose larger dimension is within the limit
passes through `resize_image_if_needed` byte-identically, with no
re-encode. -/
theorem resize_within_limit_is_identity {β : Type} (img : DecodedImage) (data : β)
    (maxDimension : Nat) (h : max img.width img.height ≤ maxDimension) :
    resize_image_if_needed img data maxDimension = .original data := by
  simp [resize_image_if_needed, h]

/-- Witness for C7 at a concrete 800 x 600 image against limit 1024. -/
theorem resize_within_limit_is_identity_witness :
    resize_image_if_needed ⟨800, 600, some "PNG"⟩ (37 : Nat) 1024 = .original 37 :=
  resize_within_limit_is_identity ⟨800, 600, some "PNG"⟩ 37 1024 (by decide)

/-- C9 counterexample: with the default language configured as Chinese,
looking up a key in an unsupported language falls back to the hard-coded
English template, not to the configured default language's template. -/
theorem fallback_ignores_default_language :
    DEFAULT_LANGUAGE "zh" = "zh"
    ∧ t "enqueued" "fr" = "Got it, I have enqueued your request."
    ∧ t "enqueued" (DEFAULT_LANGUAGE "zh") = "收到，已将你的请求加入队列。"
    ∧ t "enqueued" "fr" ≠ t "enqueued" (DEFAULT_LANGUAGE "zh") := by
  refine ⟨?_, ?_, ?_, ?_⟩ <;> decide

/-- C9 amended: when the key has no template for the requested language,
the lookup returns the hard-coded English template for that key (or the
key itself when even the English entry is missing), which coincides with
the requested-language lookup for `"en"`; the configured default language
plays no role in the fallback. -/
theorem lookup_falls_back_to_english (key lang : String)
    (h : dictGet ((dictGet TRANSLATIONS key).getD []) lang = none) :
    t key lang = ((dictGet ((dictGet TRANSLATIONS key).getD []) "en").getD key)
    ∧ t key lang = t key "en" := by
  have h1 : t key lang = ((dictGet ((dictGet TRANSLATIONS key).getD []) "en").getD key) := by
    unfold t
    rw [h]
  refine ⟨h1, ?_⟩
  rw [h1]
  unfold t
  cases h2 : dictGet ((dictGet TRANSLATIONS key).getD []) "en" <;> simp [h2]

/-- Witness for the C9 amended theorem: the key `enqueued` has no French
template, so the lookup yields the English template. -/
theorem lookup_falls_back_to_english_witness :
    t "enqueued" "fr" = ((dictGet ((dictGet TRANSLATIONS "enqueued").getD []) "en").getD "enqueued")
    ∧ t "enqueued" "fr" = t "enqueued" "en" :=
  lookup_falls_back_to_english "enqueued" "fr" rfl

/-- Step equation: a poll that fetches `completed` returns at once. -/
theorem pollAux_step_completed (tr : PollTrace) (timeout : Int) (fuel n : Nat)
    (start : Option Int) (h1 : tr.status n = "completed") :
    pollAux tr timeout (fuel + 1) n start = some (.completed n start) := by
  simp [pollAux, h1]

/-- Step equation: a poll that fetches `failed` raises at once. -/
theorem pollAux_step_failed (tr : PollTrace) (timeout : Int) (fuel n : Nat)
    (start : Option Int) (_h1 : tr.status n ≠ "completed") (h2 : tr.status n = "failed") :
    pollAux tr timeout (fuel + 1) n start = some (.jobFailed n start) := by
  simp [pollAux, h2]

/-- Step equation: a poll that fetches `queued` with nothing recorded
records nothing, skips the timeout check, and loops. -/
theorem pollAux_step_queued (tr : PollTrace) (timeout : Int) (fuel n : Nat)
    (hq : tr.status n = "queued") :
    pollAux tr timeout (fuel + 1) n none = pollAux tr timeout fuel (n + 1) none := by
  simp [pollAux, hq]

/-- Step equation: a poll that fetches a non-queued, non-terminal status
with nothing recorded records the current clock reading and then applies
the timeout check against it. -/
theorem pollAux_step_record (tr : PollTrace) (timeout : Int) (fuel n : Nat)
    (h1 : tr.status n ≠ "completed") (h2 : tr.status n ≠ "failed")
    (hq : tr.status n ≠ "queued") :
    pollAux tr timeout (fuel + 1) n none =
      if tr.time n - tr.time n > timeout then some (.timedOut n (tr.time n))
      else pollAux tr timeout fuel (n + 1) (some (tr.time n)) := by
  simp [pollAux, h1, h2, hq]

/-- Step equation: a poll that fetches a non-terminal status with a start
already recorded keeps it and applies the timeout check against it. -/
theorem pollAux_step_keep (tr : PollTrace) (timeout : Int) (fuel n : Nat) (st0 : Int)
    (h1 : tr.status n ≠ "completed") (h2 : tr.status n ≠ "failed") :
    pollAux tr timeout (fuel + 1) n (some st0) =
      if tr.time n - st0 > timeout then some (.timedOut n st0)
      else pollAux tr timeout fuel (n + 1) (some st0) := by
  simp [pollAux, h1, h2]

/-- Soundness of the polling loop body: starting from any state satisfying
the loop invariant, a run that ends does so at a poll no earlier than the
current one; its recorded processing start, if any, is the clock reading of
the first poll whose status was neither queued nor terminal; if none was
recorded, every poll strictly before the final one reported queued; a
timed-out outcome means the elapsed time since the recorded start strictly
exceeded the timeout and the status just observed was non-terminal; and
completed and failed outcomes report the matching observed status. -/
theorem pollAux_sound (tr : PollTrace) (timeout : Int) :
    ∀ fuel n start o, PollInv tr n start →
      pollAux tr timeout fuel n start = some o →
      ((1 ≤ o.finalPoll ∧ n ≤ o.finalPoll)
      ∧ (∀ st, o.processingStart = some st →
          ∃ k, 1 ≤ k ∧ k ≤ o.finalPoll ∧ startsProcessingAt tr k ∧ st = tr.time k)
      ∧ (o.processingStart = none → queuedBefore tr o.finalPoll)
      ∧ (∀ m st, o = .timedOut m st →
          tr.time m - st > timeout ∧ ¬ isTerminalStatus (tr.status m))
      ∧ (∀ m st, o = .completed m st → tr.status m = "completed")
      ∧ (∀ m st, o = .jobFailed m st → tr.status m = "failed")) := by
  intro fuel
  induction fuel with
  | zero => intro n start o _ h; simp [pollAux] at h
  | succ fuel ih =>
    intro n start o hinv h
    obtain ⟨hn1, hnone, hsome⟩ := hinv
    by_cases h1 : tr.status n = "completed"
    · rw [pollAux_step_completed tr timeout fuel n start h1] at h
      obtain rfl : PollOutcome.completed n start = o := by
        exact Option.some.inj h
      refine ⟨⟨hn1, le_refl n⟩, ?_, ?_, ?_, ?_, ?_⟩
      · intro st hst
        obtain ⟨k, hk1, hk2, hks, hkt⟩ := hsome st hst
        exact ⟨k, hk1, Nat.le_of_lt hk2, hks, hkt⟩
      · exact hnone
      · intro m st heq; cases heq
      · intro m st heq; cases heq; exact h1
      · intro m st heq; cases heq
    · by_cases h2 : tr.status n = "failed"
      · rw [pollAux_step_failed tr timeout fuel n start h1 h2] at h
        obtain rfl : PollOutcome.jobFailed n start = o := by
          exact Option.some.inj h
        refine ⟨⟨hn1, le_refl n⟩, ?_, ?_, ?_, ?_, ?_⟩
        · intro st hst
          obtain ⟨k, hk1, hk2, hks, hkt⟩ := hsome st hst
          exact ⟨k, hk1, Nat.le_of_lt hk2, hks, hkt⟩
        · exact hnone
        · intro m st heq; cases heq
        · intro m st heq; cases heq
        · intro m st heq; cases heq; exact h2
      · have hnterm : ¬ isTerminalStatus (tr.status n) := by
          intro hx; rcases hx with hx | hx
          · exact h1 hx
          · exact h2 hx
        cases start with
        | none =>
          by_cases hq : tr.status n = "queued"
          · rw [pollAux_step_queued tr timeout fuel n hq] at h
            have hinv' : PollInv tr (n + 1) none := by
              refine ⟨by omega, ?_, ?_⟩
              · intro _ j hj1 hj2
                by_cases hjn : j < n
                · exact hnone rfl j hj1 hjn
                · have : j = n := by omega
                  subst this; exact hq
              · intro st hst; cases hst
            obtain ⟨⟨hf1, hf2⟩, hA, hB, hC, hD, hE⟩ := ih (n + 1) none o hinv' h
            exact ⟨⟨hf1, by omega⟩, hA, hB, hC, hD, hE⟩
          · rw [pollAux_step_record tr timeout fuel n h1 h2 hq] at h
            have hstart : startsProcessingAt tr n := ⟨hq, hnterm, hnone rfl⟩
            by_cases ht : tr.time n - tr.time n > timeout
            · rw [if_pos ht] at h
              obtain rfl : PollOutcome.timedOut n (tr.time n) = o := by
                exact Option.some.inj h
              refine ⟨⟨hn1, le_refl n⟩, ?_, ?_, ?_, ?_, ?_⟩
              · intro st hst
                obtain rfl : tr.time n = st := by simpa [PollOutcome.processingStart] using hst
                exact ⟨n, hn1, le_refl n, hstart, rfl⟩
              · intro hx; cases hx
              · intro m st heq; cases heq; exact ⟨ht, hnterm⟩
              · intro m st heq; cases heq
              · intro m st heq; cases heq
            · rw [if_neg ht] at h
              have hinv' : PollInv tr (n + 1) (some (tr.time n)) := by
                refine ⟨by omega, ?_, ?_⟩
                · intro hx; cases hx
                · intro st hst
                  obtain rfl : tr.time n = st := by simpa [PollOutcome.processingStart] using hst
                  exact ⟨n, hn1, by omega, hstart, rfl⟩
              obtain ⟨⟨hf1, hf2⟩, hA, hB, hC, hD, hE⟩ := ih (n + 1) (some (tr.time n)) o hinv' h
              exact ⟨⟨hf1, by omega⟩, hA, hB, hC, hD, hE⟩
        | some st0 =>
          rw [pollAux_step_keep tr timeout fuel n st0 h1 h2] at h
          by_cases ht : tr.time n - st0 > timeout
          · rw [if_pos ht] at h
            obtain rfl : PollOutcome.timedOut n st0 = o := by
              exact Option.some.inj h
            refine ⟨⟨hn1, le_refl n⟩, ?_, ?_, ?_, ?_, ?_⟩
            · intro st hst
              obtain rfl : st0 = st := by simpa [PollOutcome.processingStart] using hst
              obtain ⟨k, hk1, hk2, hks, hkt⟩ := hsome st0 rfl
              exact ⟨k, hk1, Nat.le_of_lt hk2, hks, hkt⟩
            · intro hx; cases hx
            · intro m st heq; cases heq; exact ⟨ht, hnterm⟩
            · intro m st heq; cases heq
            · intro m st heq; cases heq
          · rw [if_neg ht] at h
            have hinv' : PollInv tr (n + 1) (some st0) := by
              refine ⟨by omega, ?_, ?_⟩
              · intro hx; cases hx
              · intro st hst
                obtain rfl : st0 = st := by simpa [PollOutcome.processingStart] using hst
                obtain ⟨k, hk1, hk2, hks, hkt⟩ := hsome st0 rfl
                exact ⟨k, hk1, by omega, hks, hkt⟩
            obtain ⟨⟨hf1, hf2⟩, hA, hB, hC, hD, hE⟩ := ih (n + 1) (some st0) o hinv' h
            exact ⟨⟨hf1, by omega⟩, hA, hB, hC, hD, hE⟩

/-- The invariant holds at the loop entry: poll 1, nothing recorded. -/
theorem pollInv_init (tr : PollTrace) : PollInv tr 1 none := by
  refine ⟨le_refl 1, ?_, ?_⟩
  · intro _ j hj1 hj2; omega
  · intro st hst; cases hst

/-- C4: over any run of `poll_job_status` that ends, the recorded
processing-start timestamp, when present, is the clock reading of the
first observed status that was neither queued nor terminal (so later
observations never overwrote it); when absent, every status observed
strictly before the final poll was queued; and a job whose first observed
status is terminal ends at poll 1 with no processing start recorded. -/
theorem poll_processing_start_recorded_once (tr : PollTrace) (timeoutArg : Option Int)
    (jobTimeoutCfg : Int) (fuel : Nat) (o : PollOutcome)
    (h : poll_job_status tr timeoutArg jobTimeoutCfg fuel = some o) :
    (∀ st, o.processingStart = some st →
      ∃ k, 1 ≤ k ∧ k ≤ o.finalPoll ∧ startsProcessingAt tr k ∧ st = tr.time k)
    ∧ (o.processingStart = none → queuedBefore tr o.finalPoll)
    ∧ (isTerminalStatus (tr.status 1) → o.processingStart = none ∧ o.finalPoll = 1) := by
  rw [poll_job_status] at h
  obtain ⟨_, hA, hB, _, _, _⟩ :=
    pollAux_sound tr (timeoutArg.getD jobTimeoutCfg) fuel 1 none o (pollInv_init tr) h
  refine ⟨hA, hB, ?_⟩
  intro hterm
  cases fuel with
  | zero => simp [pollAux] at h
  | succ fuel =>
    by_cases hc : tr.status 1 = "completed"
    · rw [pollAux_step_completed tr (timeoutArg.getD jobTimeoutCfg) fuel 1 none hc] at h
      obtain rfl : PollOutcome.completed 1 none = o := Option.some.inj h
      exact ⟨rfl, rfl⟩
    · have hf : tr.status 1 = "failed" := by
        rcases hterm with hx | hx
        · exact absurd hx hc
        · exact hx
      rw [pollAux_step_failed tr (timeoutArg.getD jobTimeoutCfg) fuel 1 none hc hf] at h
      obtain rfl : PollOutcome.jobFailed 1 none = o := Option.some.inj h
      exact ⟨rfl, rfl⟩

/-- Witness for C4 on the concrete trace queued-processing-completed. -/
theorem poll_processing_start_recorded_once_witness :
    (∀ st, (PollOutcome.completed 3 (some 4)).processingStart = some st →
      ∃ k, 1 ≤ k ∧ k ≤ (PollOutcome.completed 3 (some 4)).finalPoll
        ∧ startsProcessingAt trQPC k ∧ st = trQPC.time k)
    ∧ ((PollOutcome.completed 3 (some 4)).processingStart = none →
        queuedBefore trQPC (PollOutcome.completed 3 (some 4)).finalPoll)
    ∧ (isTerminalStatus (trQPC.status 1) →
        (PollOutcome.completed 3 (some 4)).processingStart = none
          ∧ (PollOutcome.completed 3 (some 4)).finalPoll = 1) :=
  poll_processing_start_recorded_once trQPC none 100 10 (.completed 3 (some 4)) (by decide)

/-- Helper for C5: while every fetched status is queued, the loop never
records a processing start and never exits, whatever the clock does. -/
theorem pollAux_queued_forever (tr : PollTrace) (timeout : Int)
    (hq : ∀ j, tr.status j = "queued") :
    ∀ fuel n, pollAux tr timeout fuel n none = none := by
  intro fuel
  induction fuel with
  | zero => intro n; rfl
  | succ fuel ih =>
    intro n
    rw [pollAux_step_queued tr timeout fuel n (hq n)]
    exact ih (n + 1)

/-- C5: a job that the backend reports as queued on every poll is never
timed out, however much total time elapses: the run never exits at all
(it returns nothing for every fuel bound), so in particular no JobTimedOut
error is ever raised before a non-queued, non-terminal status is seen. -/
theorem queued_forever_never_times_out (tr : PollTrace) (timeoutArg : Option Int)
    (jobTimeoutCfg : Int) (fuel : Nat) (hq : ∀ j, tr.status j = "queued") :
    poll_job_status tr timeoutArg jobTimeoutCfg fuel = none := by
  rw [poll_job_status]
  exact pollAux_queued_forever tr (timeoutArg.getD jobTimeoutCfg) hq fuel 1

/-- Witness for C5 on the always-queued trace whose clock gallops a
million units per poll against a timeout of 1. -/
theorem queued_forever_never_times_out_witness :
    poll_job_status trQ none 1 5 = none :=
  queued_forever_never_times_out trQ none 1 5 (fun _ => rfl)

/-- C6: the status fetched on a poll is checked before the timeout: a
JobTimedOut outcome can only arise when the elapsed processing time
strictly exceeds the timeout and the status just observed was
non-terminal; and whenever the loop reaches a poll whose status is
completed, it returns immediately with the completed outcome, whatever
the clock or the recorded start say (so in particular even when the
elapsed time already exceeds the timeout on that same poll). -/
theorem poll_status_checked_before_timeout (tr : PollTrace) (timeoutArg : Option Int)
    (jobTimeoutCfg : Int) (fuel n : Nat) (st : Int) (start : Option Int) :
    (poll_job_status tr timeoutArg jobTimeoutCfg fuel = some (.timedOut n st) →
      tr.time n - st > timeoutArg.getD jobTimeoutCfg ∧ ¬ isTerminalStatus (tr.status n))
    ∧ (tr.status n = "completed" →
      pollAux tr (timeoutArg.getD jobTimeoutCfg) (fuel + 1) n start =
        some (.completed n start)) := by
  constructor
  · intro h
    rw [poll_job_status] at h
    obtain ⟨_, _, _, hD, _, _⟩ :=
      pollAux_sound tr (timeoutArg.getD jobTimeoutCfg) fuel 1 none
        (.timedOut n st) (pollInv_init tr) h
    exact hD n st rfl
  · intro hc
    simp [pollAux, hc]

/-- Witness for C6: an always-processing trace with a clock jump times
out with elapsed 50 over budget 10 on a non-terminal status, and an
always-completed trace returns at once however large the clock and
however old the recorded start. -/
theorem poll_status_checked_before_timeout_witness :
    (trP.time 2 - 0 > (none : Option Int).getD 10 ∧ ¬ isTerminalStatus (trP.status 2))
    ∧ pollAux trC ((none : Option Int).getD 10) 6 1 (some (-100)) =
        some (.completed 1 (some (-100))) :=
  ⟨(poll_status_checked_before_timeout trP none 10 5 2 0 none).1 (by decide),
   (poll_status_checked_before_timeout trC none 10 5 1 0 (some (-100))).2 rfl⟩

/-- Rounding to the nearest integer, ties to even, moves a rational by at
most one half. -/
theorem roundEven_close (q : ℚ) : |(roundEven q : ℚ) - q| ≤ 1 / 2 := by
  have h1 : (⌊q⌋ : ℚ) ≤ q := Int.floor_le q
  have h2 : q < ⌊q⌋ + 1 := Int.lt_floor_add_one q
  rw [roundEven]
  split_ifs with ha hb hc
  · rw [abs_le]; constructor <;> linarith
  · have ha' := not_lt.mp ha
    rw [abs_le]; push_cast; constructor <;> linarith
  · have ha' := not_lt.mp ha
    have hb' := not_lt.mp hb
    rw [abs_le]; constructor <;> linarith
  · have ha' := not_lt.mp ha
    have hb' := not_lt.mp hb
    rw [abs_le]; push_cast; constructor <;> linarith

/-- The binade scan is correct as soon as the start is a lower bound and the
fuel reaches past the value. -/
theorem findExpGo_correct (q : ℚ) :
    ∀ (fuel : Nat) (e : ℤ), (2:ℚ) ^ e ≤ q → q < 2 ^ (e + (fuel : ℤ)) →
      (2:ℚ) ^ (findExpGo q fuel e) ≤ q ∧ q < 2 ^ (findExpGo q fuel e + 1) := by
  intro fuel
  induction fuel with
  | zero =>
    intro e h1 h2
    rw [Nat.cast_zero, add_zero] at h2
    exact absurd h2 (not_lt.mpr h1)
  | succ fuel ih =>
    intro e h1 h2
    rw [findExpGo]
    split_ifs with hlt
    · exact ⟨h1, hlt⟩
    · apply ih (e + 1) (not_lt.mp hlt)
      have heq : e + (((fuel : ℤ)) + 1) = e + 1 + (fuel : ℤ) := by ring
      rw [Nat.cast_succ, heq] at h2
      exact h2

/-- The binade of a positive rational in the covered range. -/
theorem findExp_correct (q : ℚ) (h1 : (2:ℚ) ^ (-64 : ℤ) ≤ q) (h2 : q < (2:ℚ) ^ (64 : ℤ)) :
    (2:ℚ) ^ (findExp q) ≤ q ∧ q < 2 ^ (findExp q + 1) := by
  rw [findExp]
  apply findExpGo_correct q 128 (-64) h1
  have he : ((-64 : ℤ) + ((128 : ℕ) : ℤ)) = 64 := by norm_num
  rw [he]
  exact h2

/-- The binade is unique, which pins down `findExp` on concrete inputs. -/
theorem findExp_eq_of (q : ℚ) (e : ℤ) (h1 : (2:ℚ) ^ (-64 : ℤ) ≤ q)
    (h2 : q < (2:ℚ) ^ (64 : ℤ)) (hl : (2:ℚ) ^ e ≤ q) (hu : q < 2 ^ (e + 1)) :
    findExp q = e := by
  obtain ⟨hl', hu'⟩ := findExp_correct q h1 h2
  by_contra hne
  rcases lt_or_gt_of_ne hne with hlt | hgt
  · have : (2:ℚ) ^ (findExp q + 1) ≤ 2 ^ e := zpow_le_zpow_right₀ (by norm_num) (by omega)
    linarith
  · have : (2:ℚ) ^ (e + 1) ≤ 2 ^ (findExp q) := zpow_le_zpow_right₀ (by norm_num) (by omega)
    linarith

/-- Relative error of one binary64 rounding: within the covered range the
rounded value differs from the exact one by at most half an ulp, i.e. by at
most the value over 2^53. -/
theorem roundB64_bounds (q : ℚ) (h1 : (2:ℚ) ^ (-64 : ℤ) ≤ q) (h2 : q < (2:ℚ) ^ (64 : ℤ)) :
    q - q / 2 ^ 53 ≤ roundB64 q ∧ roundB64 q ≤ q + q / 2 ^ 53 := by
  have hq0 : (0:ℚ) < q := lt_of_lt_of_le (by positivity) h1
  obtain ⟨he1, he2⟩ := findExp_correct q h1 h2
  rw [roundB64, if_neg (not_le.mpr hq0)]
  set e := findExp q with hedef
  set s : ℚ := q * 2 ^ ((52:ℤ) - e) with hsdef
  have hkey : s * 2 ^ (e - (52:ℤ)) = q := by
    rw [hsdef, mul_assoc, ← zpow_add₀ (two_ne_zero)]
    have hz : (52:ℤ) - e + (e - 52) = 0 := by ring
    rw [hz, zpow_zero, mul_one]
  have h2pos : (0:ℚ) < 2 ^ (e - (52:ℤ)) := by positivity
  have hre := roundEven_close s
  have habs : |(roundEven s : ℚ) * 2 ^ (e - (52:ℤ)) - q| =
      |(roundEven s : ℚ) - s| * 2 ^ (e - (52:ℤ)) := by
    conv_lhs => rw [← hkey]
    rw [← sub_mul, abs_mul, abs_of_pos h2pos]
  have hb : |(roundEven s : ℚ) * 2 ^ (e - (52:ℤ)) - q| ≤ q / 2 ^ 53 := by
    rw [habs]
    have step1 : |(roundEven s : ℚ) - s| * 2 ^ (e - (52:ℤ)) ≤ (1/2) * 2 ^ (e - (52:ℤ)) :=
      mul_le_mul_of_nonneg_right hre (le_of_lt h2pos)
    have step2 : ((1:ℚ)/2) * 2 ^ (e - (52:ℤ)) = 2 ^ (e - (53:ℤ)) := by
      rw [show ((1:ℚ)/2) = 2 ^ (-1 : ℤ) by norm_num, ← zpow_add₀ (two_ne_zero),
        show (-1 : ℤ) + (e - 52) = e - 53 by ring]
    have step3 : (2:ℚ) ^ (e - (53:ℤ)) ≤ q / 2 ^ 53 := by
      have hsplit : (2:ℚ) ^ (e - (53:ℤ)) = 2 ^ e * 2 ^ (-53 : ℤ) := by
        rw [← zpow_add₀ (two_ne_zero), show e + (-53 : ℤ) = e - 53 by ring]
      have hc : (2:ℚ) ^ (-53 : ℤ) = 1 / 2 ^ 53 := by norm_num
      rw [hsplit, hc]
      calc (2:ℚ) ^ e * (1 / 2 ^ 53) ≤ q * (1 / 2 ^ 53) :=
            mul_le_mul_of_nonneg_right he1 (by positivity)
        _ = q / 2 ^ 53 := by ring
    linarith
  rw [abs_le] at hb
  constructor <;> linarith [hb.1, hb.2]

/-- Evaluation rule for `roundEven` when the fractional part is below one
half. -/
theorem roundEven_eval_lt (q : ℚ) (f : ℤ) (hf : ⌊q⌋ = f) (hlt : q - (f:ℚ) < 1/2) :
    roundEven q = f := by
  rw [roundEven, hf, if_pos hlt]

/-- Evaluation rule for `roundB64` from a pinned binade and a computed
significand. -/
theorem roundB64_eval (q : ℚ) (e k : ℤ)
    (h1 : (2:ℚ) ^ (-64 : ℤ) ≤ q) (h2 : q < (2:ℚ) ^ (64 : ℤ))
    (hl : (2:ℚ) ^ e ≤ q) (hu : q < 2 ^ (e + 1))
    (hk : roundEven (q * 2 ^ ((52:ℤ) - e)) = k) :
    roundB64 q = (k : ℚ) * 2 ^ (e - (52:ℤ)) := by
  have hq0 : (0:ℚ) < q := lt_of_lt_of_le (by positivity) h1
  rw [roundB64, if_neg (not_le.mpr hq0), findExp_eq_of q e h1 h2 hl hu, hk]

set_option maxHeartbeats 1600000 in
/-- Behaviour of the binary64 dimension computation for an oversized image
dimension `d ≤ L` against limit `m < L`, with `L` up to 2^20 (far above any
real image side): the computed value never exceeds the limit, equals the
exact rational floor or falls exactly one below it, and lies within
1/2^30 of the exact scaled value, so aspect ratio is preserved up to
integer rounding. -/
theorem scaledDim_spec (d m L : Nat) (hd1 : 1 ≤ d) (hdL : d ≤ L) (hm1 : 1 ≤ m)
    (hmL : m < L) (hL : L ≤ 2 ^ 20) :
    scaledDim d m L ≤ m
    ∧ (scaledDim d m L = d * m / L ∨ scaledDim d m L + 1 = d * m / L)
    ∧ ((d : ℚ) * m / L - 1 / 2 ^ 30 - 1 < (scaledDim d m L : ℚ))
    ∧ ((scaledDim d m L : ℚ) ≤ (d : ℚ) * m / L + 1 / 2 ^ 30) := by
  have hL0 : 0 < L := by omega
  have hLQ : (0:ℚ) < (L:ℚ) := by exact_mod_cast hL0
  have hLle : (L:ℚ) ≤ 2 ^ 20 := by exact_mod_cast hL
  have hdQ : (1:ℚ) ≤ (d:ℚ) := by exact_mod_cast hd1
  have hmQ : (1:ℚ) ≤ (m:ℚ) := by exact_mod_cast hm1
  have hdLQ : (d:ℚ) ≤ (L:ℚ) := by exact_mod_cast hdL
  have hmLQ : (m:ℚ) < (L:ℚ) := by exact_mod_cast hmL
  set x : ℚ := (d : ℚ) * m / L with hxdef
  set q1 : ℚ := (m : ℚ) / L with hq1def
  have hq1_pos : 0 < q1 := div_pos (by linarith) hLQ
  have hq1_lb : (1:ℚ) / 2 ^ 20 ≤ q1 := by
    rw [hq1def, div_le_div_iff₀ (by norm_num) hLQ]
    linarith
  have hq1_ub : q1 < 1 := by
    rw [hq1def, div_lt_one hLQ]
    exact hmLQ
  have hx_eq : x = (d:ℚ) * q1 := by rw [hxdef, hq1def, mul_div_assoc]
  have hx_lb : (1:ℚ) / 2 ^ 20 ≤ x := by
    rw [hx_eq]
    nlinarith [mul_nonneg (sub_nonneg.mpr hdQ) (le_of_lt hq1_pos)]
  have hx_le_m : x ≤ (m:ℚ) := by
    rw [hxdef, div_le_iff₀ hLQ]
    nlinarith [mul_nonneg (sub_nonneg.mpr hdLQ) (by linarith : (0:ℚ) ≤ (m:ℚ))]
  have hmQ20 : (m:ℚ) ≤ 2 ^ 20 := by linarith
  have hx_ub : x ≤ 2 ^ 20 := by linarith
  have hlow64 : (2:ℚ) ^ (-64 : ℤ) ≤ 1 / 2 ^ 20 := by norm_num
  have hhigh64 : (1:ℚ) < (2:ℚ) ^ (64 : ℤ) := by norm_num
  obtain ⟨hd1l, hd1u⟩ := roundB64_bounds q1 (le_trans hlow64 hq1_lb) (lt_trans hq1_ub hhigh64)
  set d1 : ℚ := roundB64 q1 with hd1def
  set q2 : ℚ := (d : ℚ) * d1 with hq2def
  have hq2_l : x - x / 2 ^ 53 ≤ q2 := by
    rw [hq2def, hx_eq]
    have hmm := mul_le_mul_of_nonneg_left hd1l (by linarith : (0:ℚ) ≤ (d:ℚ))
    calc (d:ℚ) * q1 - (d:ℚ) * q1 / 2 ^ 53 = (d:ℚ) * (q1 - q1 / 2 ^ 53) := by ring
      _ ≤ (d:ℚ) * d1 := hmm
  have hq2_u : q2 ≤ x + x / 2 ^ 53 := by
    rw [hq2def, hx_eq]
    have hmm := mul_le_mul_of_nonneg_left hd1u (by linarith : (0:ℚ) ≤ (d:ℚ))
    calc (d:ℚ) * d1 ≤ (d:ℚ) * (q1 + q1 / 2 ^ 53) := hmm
      _ = (d:ℚ) * q1 + (d:ℚ) * q1 / 2 ^ 53 := by ring
  have hq2_lb : (2:ℚ) ^ (-64 : ℤ) ≤ q2 := by
    have h1 : (1:ℚ) / 2 ^ 21 ≤ x - x / 2 ^ 53 := by linarith
    have h2 : (2:ℚ) ^ (-64 : ℤ) ≤ 1 / 2 ^ 21 := by norm_num
    exact le_trans (le_trans h2 h1) hq2_l
  have hq2_le : q2 ≤ 2 ^ 21 := by
    have h1 : x + x / 2 ^ 53 ≤ 2 ^ 20 + 2 ^ 20 / 2 ^ 53 := by linarith
    have h2 : (2:ℚ) ^ 20 + 2 ^ 20 / 2 ^ 53 ≤ 2 ^ 21 := by norm_num
    linarith
  have hq2_ub : q2 < (2:ℚ) ^ (64 : ℤ) := by
    have h2 : (2:ℚ) ^ 21 < 2 ^ (64 : ℤ) := by norm_num
    exact lt_of_le_of_lt hq2_le h2
  obtain ⟨hvl, hvu⟩ := roundB64_bounds q2 hq2_lb hq2_ub
  set v : ℚ := roundB64 q2 with hvdef
  have hv_l : x - 1 / 2 ^ 30 ≤ v := by
    have h1 : q2 / 2 ^ 53 ≤ 2 ^ 21 / 2 ^ 53 := by linarith
    have h3 : x / 2 ^ 53 + (2:ℚ) ^ 21 / 2 ^ 53 ≤ 1 / 2 ^ 30 := by
      have : x / 2 ^ 53 ≤ 2 ^ 20 / 2 ^ 53 := by linarith
      have h4 : (2:ℚ) ^ 20 / 2 ^ 53 + 2 ^ 21 / 2 ^ 53 ≤ 1 / 2 ^ 30 := by norm_num
      linarith
    linarith
  have hv_u : v ≤ x + 1 / 2 ^ 30 := by
    have h1 : q2 / 2 ^ 53 ≤ 2 ^ 21 / 2 ^ 53 := by linarith
    have h3 : x / 2 ^ 53 + (2:ℚ) ^ 21 / 2 ^ 53 ≤ 1 / 2 ^ 30 := by
      have : x / 2 ^ 53 ≤ 2 ^ 20 / 2 ^ 53 := by linarith
      have h4 : (2:ℚ) ^ 20 / 2 ^ 53 + 2 ^ 21 / 2 ^ 53 ≤ 1 / 2 ^ 30 := by norm_num
      linarith
    linarith
  have hv_pos : 0 < v := by
    have : (0:ℚ) < 1 / 2 ^ 20 - 1 / 2 ^ 30 := by norm_num
    linarith
  have hsd : scaledDim d m L = ⌊v⌋₊ := by
    unfold scaledDim pyTrunc pyMul pyDiv
    rw [← hq1def, ← hd1def, ← hq2def, ← hvdef, Int.floor_toNat]
  rw [hsd]
  set W := ⌊v⌋₊ with hWdef
  have hW_le_v : (W:ℚ) ≤ v := Nat.floor_le (le_of_lt hv_pos)
  have hW_gt : v < W + 1 := Nat.lt_floor_add_one v
  have hc3 : x - 1 / 2 ^ 30 - 1 < (W:ℚ) := by linarith
  have hc4 : (W:ℚ) ≤ x + 1 / 2 ^ 30 := by linarith
  have hc1 : W ≤ m := by
    have hq : (W:ℚ) < (m:ℚ) + 1 := by linarith
    have : W < m + 1 := by exact_mod_cast hq
    omega
  set F := d * m / L with hFdef
  set r := d * m % L with hrdef
  have hdm : L * F + r = d * m := Nat.div_add_mod (d * m) L
  have hrL : r < L := Nat.mod_lt _ hL0
  have hx_split : x = (F:ℚ) + (r:ℚ) / (L:ℚ) := by
    rw [hxdef]
    have hcast : (d:ℚ) * m = (L:ℚ) * F + r := by exact_mod_cast hdm.symm
    rw [hcast]
    field_simp
    ring
  clear_value x q1 d1 q2 v W F r
  have hc2 : W = F ∨ W + 1 = F := by
    by_cases hr0 : r = 0
    · have hxF : x = (F:ℚ) := by
        rw [hx_split, hr0]
        simp
      have hWleF : W ≤ F := by
        have hvlt : v < ((F + 1 : ℕ) : ℚ) := by push_cast; linarith
        have := (Nat.floor_lt (le_of_lt hv_pos)).mpr hvlt
        omega
      have hFleW : F ≤ W + 1 := by
        by_cases hF0 : F = 0
        · omega
        · have hF1 : 1 ≤ F := by omega
          have hcast : ((F - 1 : ℕ) : ℚ) = (F:ℚ) - 1 := by push_cast [hF1]; ring
          have hstep : (F - 1 : ℕ) ≤ W := by
            rw [hWdef]
            apply Nat.le_floor
            rw [hcast]
            linarith
          omega
      omega
    · have hr1 : 1 ≤ r := by omega
      have hr1Q : (1:ℚ) ≤ (r:ℚ) := by exact_mod_cast hr1
      have hinvL : (1:ℚ) / 2 ^ 20 ≤ 1 / (L:ℚ) := one_div_le_one_div_of_le hLQ hLle
      have hrover : (1:ℚ) / 2 ^ 20 ≤ (r:ℚ) / L := by
        have hstep : (1:ℚ) / (L:ℚ) ≤ (r:ℚ) / L := by
          rw [div_le_div_iff₀ hLQ hLQ]
          nlinarith
        linarith
      have hrunder : (r:ℚ) / L ≤ 1 - 1 / (L:ℚ) := by
        have hr1L : (r:ℚ) + 1 ≤ (L:ℚ) := by exact_mod_cast Nat.succ_le_of_lt hrL
        rw [div_le_iff₀ hLQ]
        have hLinv : (1 - 1 / (L:ℚ)) * L = L - 1 := by field_simp
        rw [hLinv]
        linarith
      have hFleW : F ≤ W := by
        rw [hWdef]
        apply Nat.le_floor
        have hnum : (0:ℚ) ≤ 1 / 2 ^ 20 - 1 / 2 ^ 30 := by norm_num
        linarith
      have hWleF : W ≤ F := by
        have hnum : (0:ℚ) < 1 / 2 ^ 20 - 1 / 2 ^ 30 := by norm_num
        have hvlt : v < ((F + 1 : ℕ) : ℚ) := by push_cast; linarith
        have := (Nat.floor_lt (le_of_lt hv_pos)).mpr hvlt
        omega
      left
      omega
  exact ⟨hc1, hc2, hc3, hc4⟩

/-- Concrete evaluation of the binary64 dimension computation at a 22-pixel
side against limit 15: the float product 22 * (15/22) rounds to just below
15, and the truncation yields 14, one below the exact floor 15. -/
theorem scaledDim_at_22_15 : scaledDim 22 15 22 = 14 := by
  unfold scaledDim
  rw [show ((22:ℕ):ℚ) = (22:ℚ) by norm_num, show ((15:ℕ):ℚ) = (15:ℚ) by norm_num]
  have hdiv : pyDiv (15:ℚ) 22 = 6141272219141585 / 9007199254740992 := by
    unfold pyDiv
    have hfloor : ⌊(67553994410557440/11 : ℚ)⌋ = 6141272219141585 := by
      rw [Int.floor_eq_iff]
      norm_num
    have hre : roundEven ((15:ℚ)/22 * 2 ^ ((52:ℤ) - (-1:ℤ))) = 6141272219141585 := by
      rw [show (15:ℚ)/22 * 2 ^ ((52:ℤ) - (-1:ℤ)) = 67553994410557440/11 by norm_num]
      exact roundEven_eval_lt _ _ hfloor (by norm_num)
    rw [roundB64_eval ((15:ℚ)/22) (-1) 6141272219141585 (by norm_num) (by norm_num)
      (by norm_num) (by norm_num) hre]
    norm_num
  rw [hdiv]
  unfold pyMul
  rw [show (22:ℚ) * (6141272219141585 / 9007199254740992) =
      67553994410557435/4503599627370496 by norm_num]
  have hfloor2 : ⌊(67553994410557435/8 : ℚ)⌋ = 8444249301319679 := by
    rw [Int.floor_eq_iff]
    norm_num
  have hre2 : roundEven ((67553994410557435/4503599627370496 : ℚ) * 2 ^ ((52:ℤ) - (3:ℤ))) =
      8444249301319679 := by
    rw [show (67553994410557435/4503599627370496 : ℚ) * 2 ^ ((52:ℤ) - (3:ℤ)) =
        67553994410557435/8 by norm_num]
    exact roundEven_eval_lt _ _ hfloor2 (by norm_num)
  rw [roundB64_eval (67553994410557435/4503599627370496 : ℚ) 3 8444249301319679
    (by norm_num) (by norm_num) (by norm_num) (by norm_num) hre2]
  unfold pyTrunc
  rw [show ((8444249301319679:ℤ):ℚ) * 2 ^ ((3:ℤ) - (52:ℤ)) =
      8444249301319679/562949953421312 by norm_num]
  rw [show ⌊(8444249301319679/562949953421312 : ℚ)⌋ = 14 by rw [Int.floor_eq_iff]; norm_num]
  rfl

/-- C8 counterexample: a 22 x 22 image resized against limit 15 comes out
14 x 14, not the 15 x 15 the exact formula floor(dim * limit / longest)
demands: Python computes int(22 * (15/22)) in binary64, and 15/22 rounds
down, so the product lands just below 15 and truncation loses one pixel. -/
theorem resize_dimension_below_exact_floor :
    resize_image_if_needed (⟨22, 22, some "PNG"⟩ : DecodedImage) (0 : Nat) 15 =
      .reencoded 14 14 "PNG" none
    ∧ 22 * 15 / max 22 22 = 15 := by
  constructor
  · have hred : resize_image_if_needed (⟨22, 22, some "PNG"⟩ : DecodedImage) (0 : Nat) 15 =
        .reencoded (scaledDim 22 15 22) (scaledDim 22 15 22) "PNG" none := rfl
    rw [hred, scaledDim_at_22_15]
  · decide

/-- C8 amended: for every decodable image whose larger dimension exceeds the
limit (all sides and the limit at most 2^20, far beyond real images), the
output is a re-encode at the truncated binary64-scaled dimensions; each
output dimension equals floor(dim * maxDimension / max(width, height)) or
falls exactly one below it (the binary64 rounding can lose one unit, as at
22 x 22 with limit 15); the output's larger dimension never exceeds the
limit, and the aspect ratio matches the input's within integer-rounding
tolerance. -/
theorem resize_over_limit_bounds {β : Type} (data : β) (w h m : Nat) (fmt : Option String)
    (hw1 : 1 ≤ w) (hw2 : w ≤ 2 ^ 20) (hh1 : 1 ≤ h) (hh2 : h ≤ 2 ^ 20)
    (hm1 : 1 ≤ m) (hover : m < max w h) :
    resize_image_if_needed ⟨w, h, fmt⟩ data m =
      .reencoded (scaledDim w m (max w h)) (scaledDim h m (max w h)) (fmt.getD "PNG")
        (if strUpper (fmt.getD "PNG") = "JPEG" then some 95 else none)
    ∧ max (scaledDim w m (max w h)) (scaledDim h m (max w h)) ≤ m
    ∧ (scaledDim w m (max w h) = w * m / max w h
        ∨ scaledDim w m (max w h) + 1 = w * m / max w h)
    ∧ (scaledDim h m (max w h) = h * m / max w h
        ∨ scaledDim h m (max w h) + 1 = h * m / max w h)
    ∧ scaledDim w m (max w h) * h ≤ scaledDim h m (max w h) * w + w
    ∧ scaledDim h m (max w h) * w ≤ scaledDim w m (max w h) * h + h := by
  have hL : max w h ≤ 2 ^ 20 := max_le hw2 hh2
  obtain ⟨hW1, hW2, hW3, hW4⟩ := scaledDim_spec w m (max w h) hw1 (le_max_left w h) hm1 hover hL
  obtain ⟨hH1, hH2, hH3, hH4⟩ := scaledDim_spec h m (max w h) hh1 (le_max_right w h) hm1 hover hL
  have hwQ0 : (0:ℚ) < (w:ℚ) := by exact_mod_cast Nat.lt_of_lt_of_le Nat.zero_lt_one hw1
  have hhQ0 : (0:ℚ) < (h:ℚ) := by exact_mod_cast Nat.lt_of_lt_of_le Nat.zero_lt_one hh1
  have hhle : (h:ℚ) ≤ 2 ^ 20 := by exact_mod_cast hh2
  have hwle : (w:ℚ) ≤ 2 ^ 20 := by exact_mod_cast hw2
  have hP : (w:ℚ) * m / ((max w h : ℕ) : ℚ) * h = (h:ℚ) * m / ((max w h : ℕ) : ℚ) * w := by
    ring
  refine ⟨?_, max_le hW1 hH1, hW2, hH2, ?_, ?_⟩
  · simp only [resize_image_if_needed]
    rw [if_neg (not_le.mpr hover)]
    split_ifs with hj <;> rfl
  · have h1 : (scaledDim w m (max w h) : ℚ) * h ≤
        ((w:ℚ) * m / (max w h) + 1 / 2 ^ 30) * h :=
      mul_le_mul_of_nonneg_right hW4 (le_of_lt hhQ0)
    have h2 : ((h:ℚ) * m / (max w h) - 1 / 2 ^ 30 - 1) * w <
        (scaledDim h m (max w h) : ℚ) * w :=
      mul_lt_mul_of_pos_right hH3 hwQ0
    have hfin : (scaledDim w m (max w h) : ℚ) * h <
        (scaledDim h m (max w h) : ℚ) * w + w + 1 := by
      nlinarith [h1, h2, hP, hhle, hwle]
    have hnat : scaledDim w m (max w h) * h < scaledDim h m (max w h) * w + w + 1 := by
      exact_mod_cast hfin
    omega
  · have h1 : (scaledDim h m (max w h) : ℚ) * w ≤
        ((h:ℚ) * m / (max w h) + 1 / 2 ^ 30) * w :=
      mul_le_mul_of_nonneg_right hH4 (le_of_lt hwQ0)
    have h2 : ((w:ℚ) * m / (max w h) - 1 / 2 ^ 30 - 1) * h <
        (scaledDim w m (max w h) : ℚ) * h :=
      mul_lt_mul_of_pos_right hW3 hhQ0
    have hfin : (scaledDim h m (max w h) : ℚ) * w <
        (scaledDim w m (max w h) : ℚ) * h + h + 1 := by
      nlinarith [h1, h2, hP, hhle, hwle]
    have hnat : scaledDim h m (max w h) * w < scaledDim w m (max w h) * h + h + 1 := by
      exact_mod_cast hfin
    omega

/-- Witness for the C8 amended theorem at a concrete 4032 x 3024 photo
against limit 1024, detected as JPEG. -/
theorem resize_over_limit_bounds_witness :
    resize_image_if_needed (⟨4032, 3024, some "JPEG"⟩ : DecodedImage) (0 : Nat) 1024 =
      .reencoded (scaledDim 4032 1024 (max 4032 3024)) (scaledDim 3024 1024 (max 4032 3024))
        ((some "JPEG").getD "PNG")
        (if strUpper ((some "JPEG").getD "PNG") = "JPEG" then some 95 else none)
    ∧ max (scaledDim 4032 1024 (max 4032 3024)) (scaledDim 3024 1024 (max 4032 3024)) ≤ 1024
    ∧ (scaledDim 4032 1024 (max 4032 3024) = 4032 * 1024 / max 4032 3024
        ∨ scaledDim 4032 1024 (max 4032 3024) + 1 = 4032 * 1024 / max 4032 3024)
    ∧ (scaledDim 3024 1024 (max 4032 3024) = 3024 * 1024 / max 4032 3024
        ∨ scaledDim 3024 1024 (max 4032 3024) + 1 = 3024 * 1024 / max 4032 3024)
    ∧ scaledDim 4032 1024 (max 4032 3024) * 3024 ≤
        scaledDim 3024 1024 (max 4032 3024) * 4032 + 4032
    ∧ scaledDim 3024 1024 (max 4032 3024) * 4032 ≤
        scaledDim 4032 1024 (max 4032 3024) * 3024 + 3024 :=
  resize_over_limit_bounds (0 : Nat) 4032 3024 1024 (some "JPEG")
    (by decide) (by decide) (by decide) (by decide) (by decide) (by decide)

end QwenBot
